import Mathlib

/-!
Verification of the bank-statement reconciliation program (`src/main.py`).

The development shallowly embeds the Python source in Lean:

* Python floats are modelled as exact rationals (`ℚ`);
* Python's builtin `float(·)` string conversion is modelled by `pyFloat?`
  on ordinary decimal literals (sign, digits, decimal point, exponent,
  surrounding whitespace); the `inf`/`nan` spellings and underscore digit
  grouping accepted by CPython never occur in the modelled claims and are
  outside the fragment;
* a raised exception is modelled by the `error` case of `Except`;
* the two `re.search` label patterns are modelled by an executable
  whole-word search (`patSearch`) equivalent to matchability of
  `\b(w1|...|wk)\b.*\b(balance|bal)\b`, where `.` does not match a newline;
* the `print` warnings for unresolved balances are modelled as the boolean
  signals `startWarning` / `endWarning`.

All definitions are transcribed from `src/main.py`; definitions whose names
end in `Spec` restate sentences of the natural-language specification and
are proved equal to (or are compared against) the transcribed code.
-/

set_option maxRecDepth 100000
set_option maxHeartbeats 1000000

namespace BankRec

/-! ## Python `float` string conversion, modelled -/

/-- Whitespace stripped by Python `float` before parsing. -/
def pySpace (c : Char) : Bool :=
  c = ' ' || c = '\t' || c = '\n' || c = '\r' || c = '\x0b' || c = '\x0c'

/-- Decimal digit test. -/
def isDigitC (c : Char) : Bool :=
  '0' ≤ c && c ≤ '9'

/-- Numeric value of a digit string. -/
def digitsToNat (ds : List Char) : Nat :=
  ds.foldl (fun n c => 10 * n + (c.toNat - '0'.toNat)) 0

/-- Strip leading and trailing whitespace. -/
def pyStrip (cs : List Char) : List Char :=
  ((cs.dropWhile pySpace).reverse.dropWhile pySpace).reverse

/-- Parse `digits [. digits]`; returns the scaled integer mantissa together
with the number of fractional digits and the rest of the input. -/
def parseMantissa (cs : List Char) : Option ((Nat × Nat) × List Char) :=
  let ip := cs.takeWhile isDigitC
  let r1 := cs.dropWhile isDigitC
  match r1 with
  | '.' :: r2 =>
      let fp := r2.takeWhile isDigitC
      let r3 := r2.dropWhile isDigitC
      if ip.isEmpty && fp.isEmpty then none
      else some ((digitsToNat ip * 10 ^ fp.length + digitsToNat fp, fp.length), r3)
  | _ => if ip.isEmpty then none else some ((digitsToNat ip, 0), r1)

/-- Parse an optional exponent part `e[+|-]digits`. -/
def parseExponent (cs : List Char) : Option (Int × List Char) :=
  match cs with
  | [] => some (0, [])
  | c :: r =>
    if c = 'e' || c = 'E' then
      let sr : Int × List Char :=
        match r with
        | '+' :: r2 => (1, r2)
        | '-' :: r2 => (-1, r2)
        | _ => (1, r)
      let ds := sr.2.takeWhile isDigitC
      let r3 := sr.2.dropWhile isDigitC
      if ds.isEmpty then none else some (sr.1 * digitsToNat ds, r3)
    else some (0, cs)

/-- Value of a signed scaled-decimal literal: `m * 10 ^ p`, avoiding `zpow`. -/
def decToRat (m : Int) (p : Int) : ℚ :=
  if 0 ≤ p then ((m * 10 ^ p.toNat : Int) : ℚ)
  else ((m : ℚ) / ((10 : ℚ) ^ (-p).toNat))

/-- Model of Python `float(s)`: `none` models the `ValueError` raised on a
malformed literal. -/
def pyFloat? (s : String) : Option ℚ :=
  let cs := pyStrip s.data
  let sgncs : Int × List Char :=
    match cs with
    | '+' :: r => (1, r)
    | '-' :: r => (-1, r)
    | _ => (1, cs)
  match parseMantissa sgncs.2 with
  | none => none
  | some ((num, scale), r1) =>
    match parseExponent r1 with
    | none => none
    | some (e, r2) =>
      if r2.isEmpty then some (decToRat (sgncs.1 * num) (e - scale)) else none

/-! ## `safe_float` (src/main.py lines 23-30) -/

/-- Model of Python `str.replace(old, new)` for single-character removal:
`value.replace(",", "").replace("$", "")` deletes every comma and dollar sign. -/
def stripMoney (s : String) : String :=
  String.mk (s.data.filter (fun c => !(c = ',' || c = '$')))

/-- Transcription of `safe_float` applied to a string: strip `,` and `$`,
convert with `float`, and turn a `ValueError` into `0.0` via the
`except ValueError` clause. -/
def safe_float (value : String) : ℚ :=
  match pyFloat? (stripMoney value) with
  | some q => q
  | none => 0

/-- Python exceptions distinguished by the model. -/
inductive PyErr where
  | attributeError
  | valueError
deriving DecidableEq

/-- Transcription of `safe_float` on an optional argument. For `none`
(Python `None`), the attribute access `value.replace` raises
`AttributeError`, which the `except ValueError` clause does not catch, so
the call raises. For a string the result is `safe_float`. -/
def safe_floatE (value : Option String) : Except PyErr ℚ :=
  match value with
  | none => Except.error PyErr.attributeError
  | some s => Except.ok (safe_float s)

/-! ## The two label regular expressions, modelled -/

/-- Word characters for the `\b` boundary (`[a-zA-Z0-9_]`; the inputs here
are ASCII). -/
def isWordChar (c : Char) : Bool :=
  ('a' ≤ c && c ≤ 'z') || ('A' ≤ c && c ≤ 'Z') || ('0' ≤ c && c ≤ '9') || c = '_'

/-- Occurrence of the word `w` at position `i` of `cs`, with `\b` word
boundaries on both sides. -/
def wordAt (cs : List Char) (i : Nat) (w : List Char) : Bool :=
  ((cs.drop i).take w.length == w)
  && (i == 0 || !isWordChar (cs.getD (i - 1) ' '))
  && (!isWordChar (cs.getD (i + w.length) ' '))

/-- Matchability of `\b(first…)\b.*\b(second…)\b` under `re.search`: some
first-group word occurs as a whole word, and a second-group word occurs as a
whole word later, with no newline in between (`.` does not match `\n`). -/
def patSearch (firstWords secondWords : List String) (s : String) : Bool :=
  let cs := s.data
  (List.range (cs.length + 1)).any fun i =>
    firstWords.any fun w =>
      wordAt cs i w.data &&
      (List.range (cs.length + 1)).any fun j =>
        decide (i + w.length ≤ j) &&
        secondWords.any (fun b => wordAt cs j b.data) &&
        ((cs.drop (i + w.length)).take (j - (i + w.length))).all (fun c => c ≠ '\n')

/-- Alternatives of the first group of the starting-balance pattern. -/
def startWords : List String :=
  ["starting", "beginning", "previous", "opening", "prior", "initial"]

/-- Alternatives of the first group of the ending-balance pattern. -/
def endWords : List String :=
  ["ending", "current", "closing", "new", "final"]

/-- Alternatives of the second group of both patterns. -/
def balWords : List String :=
  ["balance", "bal"]

/-- Model of Python `str.lower()` on ASCII text. -/
def lowerStr (s : String) : String :=
  String.mk (s.data.map Char.toLower)

/-- The starting-balance label pattern
`\b(starting|beginning|previous|opening|prior|initial)\b.*\b(balance|bal)\b`. -/
def startPat (s : String) : Bool :=
  patSearch startWords balWords s

/-- The ending-balance label pattern
`\b(ending|current|closing|new|final)\b.*\b(balance|bal)\b`. -/
def endPat (s : String) : Bool :=
  patSearch endWords balWords s

/-! ## Data model (spec section 3; shapes read off the Azure result object) -/

/-- One table cell: row index, column index and text content. -/
structure Cell where
  row_index : Nat
  column_index : Nat
  content : String
deriving DecidableEq

/-- A table is its list of cells, in the iteration order the upstream
service delivers. -/
structure Table where
  cells : List Cell
deriving DecidableEq

/-- A key-value pair; either side may be absent (`kv_pair.key` or
`kv_pair.value` is `None`), and a present side is read through `.content`. -/
structure KVPair where
  key : Option String
  value : Option String
deriving DecidableEq

/-- The upstream analysis result consumed by the core. -/
structure StructuredDocument where
  key_value_pairs : List KVPair
  tables : List Table
deriving DecidableEq

/-- Transaction direction. -/
inductive Direction where
  | Credit
  | Debit
deriving DecidableEq

/-- One extracted transaction (the dict built at src/main.py lines 127-132). -/
structure TransactionRecord where
  date : String
  description : String
  amount : ℚ
  direction : Direction
deriving DecidableEq

/-- The dict returned by `analyze_bank_statement` (src/main.py lines 134-138). -/
structure AnalysisResult where
  starting_balance : ℚ
  ending_balance : ℚ
  transactions : List TransactionRecord
deriving DecidableEq

/-! ## First pass: key-value pairs (src/main.py lines 49-60) -/

/-- Lowercased key text of a pair (`""` when the key side is absent). -/
def kvKey (kv : KVPair) : String :=
  lowerStr (kv.key.getD "")

/-- Value text of a pair (`""` when the value side is absent). -/
def kvVal (kv : KVPair) : String :=
  kv.value.getD ""

/-- One iteration of the key-value loop: each matching pattern overwrites
the corresponding balance with the parsed value text. -/
def kvStep (acc : Option ℚ × Option ℚ) (kv : KVPair) : Option ℚ × Option ℚ :=
  let sb := if startPat (kvKey kv) then some (safe_float (kvVal kv)) else acc.1
  let eb := if endPat (kvKey kv) then some (safe_float (kvVal kv)) else acc.2
  (sb, eb)

/-- The whole key-value pass, starting from unresolved balances. -/
def kvPass (pairs : List KVPair) : Option ℚ × Option ℚ :=
  pairs.foldl kvStep (none, none)

/-! ## Second pass: table adjacency (src/main.py lines 62-86) -/

/-- The `potential_value = safe_float(...); if potential_value != 0.0` idiom
shared by the second and third passes: a candidate cell counts only when its
parse is non-zero. -/
def nonZeroParse (c : Cell) : Option ℚ :=
  let v := safe_float c.content
  if v ≠ 0 then some v else none

/-- Inner loop over `table.cells`: the first cell in iteration order in the
same row whose column index is one more or one less than the label cell's,
and whose parse is non-zero. A zero parse does not stop the scan. Python
computes `cell.column_index - 1` on unbounded integers, so a label in
column 0 has no left neighbour; `adj.column_index + 1 == cell.column_index`
renders that faithfully on `Nat`. -/
def adjacentValue (cells : List Cell) (cell : Cell) : Option ℚ :=
  cells.findSome? fun adj =>
    if adj.row_index == cell.row_index
        && (adj.column_index == cell.column_index + 1
            || adj.column_index + 1 == cell.column_index) then
      nonZeroParse adj
    else none

/-- One iteration of the second-pass cell loop: a still-unresolved field is
assigned the adjacent value of the first label-matching cell that has one. -/
def tableCellStep (cells : List Cell) (acc : Option ℚ × Option ℚ) (cell : Cell) :
    Option ℚ × Option ℚ :=
  let text := lowerStr cell.content
  let sb := if acc.1.isNone && startPat text then adjacentValue cells cell else acc.1
  let eb := if acc.2.isNone && endPat text then adjacentValue cells cell else acc.2
  (sb, eb)

/-- The whole second pass over all tables and cells. -/
def tablePass (tables : List Table) (acc : Option ℚ × Option ℚ) : Option ℚ × Option ℚ :=
  tables.foldl (fun a t => t.cells.foldl (tableCellStep t.cells) a) acc

/-! ## Third pass: row-position fallback (src/main.py lines 88-109) -/

/-- One iteration of the starting-balance fallback table loop. The `break`
in the source exits only the inner cell loop, so a hit in a later table
overwrites a hit from an earlier one. -/
def firstRowScan (acc : Option ℚ) (t : Table) : Option ℚ :=
  if t.cells.length > 0 then
    match (t.cells.filter fun c => c.row_index == 0).findSome? nonZeroParse with
    | some v => some v
    | none => acc
  else acc

/-- The starting-balance fallback over all tables. -/
def firstRowPass (tables : List Table) : Option ℚ :=
  tables.foldl firstRowScan none

/-- Model of Python `max` on a list of numbers: `none` models the
`ValueError` raised on an empty sequence. -/
def listMax? : List Nat → Option Nat
  | [] => none
  | n :: ns =>
    match listMax? ns with
    | none => some n
    | some m => some (max n m)

/-- One iteration of the ending-balance fallback table loop (total twin of
`lastRowScanE`; the `max` of an empty cell list cannot be reached because of
the `len(table.cells) > 0` guard). -/
def lastRowScan (acc : Option ℚ) (t : Table) : Option ℚ :=
  if t.cells.length > 0 then
    match listMax? (t.cells.map Cell.row_index) with
    | some mr =>
      match (t.cells.filter fun c => c.row_index == mr).findSome? nonZeroParse with
      | some v => some v
      | none => acc
    | none => acc
  else acc

/-- One iteration of the ending-balance fallback, with the `ValueError`
that Python `max` raises on an empty sequence modelled as an error. -/
def lastRowScanE (acc : Option ℚ) (t : Table) : Except Unit (Option ℚ) :=
  if t.cells.length > 0 then
    match listMax? (t.cells.map Cell.row_index) with
    | some mr =>
      Except.ok
        (match (t.cells.filter fun c => c.row_index == mr).findSome? nonZeroParse with
         | some v => some v
         | none => acc)
    | none => Except.error ()
  else Except.ok acc

/-- The ending-balance fallback over all tables, propagating a raise. -/
def lastRowPassE (tables : List Table) : Except Unit (Option ℚ) :=
  tables.foldlM lastRowScanE none

/-- The ending-balance fallback over all tables (total twin). -/
def lastRowPass (tables : List Table) : Option ℚ :=
  tables.foldl lastRowScan none

/-! ## The assembled resolver and extractor (src/main.py lines 44-146) -/

/-- State of the two balances after the first two passes: the second pass
runs only when at least one field is still unresolved. -/
def afterPass2 (doc : StructuredDocument) : Option ℚ × Option ℚ :=
  let p1 := kvPass doc.key_value_pairs
  if p1.1.isNone || p1.2.isNone then tablePass doc.tables p1 else p1

/-- Both balances after all passes, still marking unresolved fields. -/
def resolveBalancesOpt (doc : StructuredDocument) : Option ℚ × Option ℚ :=
  let p2 := afterPass2 doc
  let sb := if p2.1.isNone then firstRowPass doc.tables else p2.1
  let eb := if p2.2.isNone then lastRowPass doc.tables else p2.2
  (sb, eb)

/-- Both balances after all passes, propagating a raise out of the
ending-balance fallback. -/
def resolveBalancesOptE (doc : StructuredDocument) : Except Unit (Option ℚ × Option ℚ) :=
  let p2 := afterPass2 doc
  let sb := if p2.1.isNone then firstRowPass doc.tables else p2.1
  match (if p2.2.isNone then lastRowPassE doc.tables else Except.ok p2.2) with
  | Except.ok eb => Except.ok (sb, eb)
  | Except.error e => Except.error e

/-- Row contents for a given row index, in cell iteration order
(`[c.content for c in table.cells if c.row_index == cell.row_index]`). -/
def rowContents (cells : List Cell) (r : Nat) : List String :=
  (cells.filter fun c => c.row_index == r).map Cell.content

/-- Body of the transaction-extraction cell loop (src/main.py lines 123-132):
skip header cells, rebuild the cell's whole row, and emit a record when the
row has at least three entries. -/
def emitRecord (cells : List Cell) (cell : Cell) : Option TransactionRecord :=
  if cell.row_index > 0 then
    match rowContents cells cell.row_index with
    | d :: desc :: amt :: _ =>
      some { date := d, description := desc, amount := safe_float amt,
             direction := if safe_float amt > 0 then Direction.Credit else Direction.Debit }
    | _ => none
  else none

/-- Transaction extraction (src/main.py lines 121-132): one record per cell
with positive row index whose row has at least three cells. -/
def extractTransactions (tables : List Table) : List TransactionRecord :=
  (tables.map fun t => t.cells.filterMap (emitRecord t.cells)).flatten

/-- The body of `analyze_bank_statement` after a successful analysis call,
with any raise propagated (none is in fact possible). -/
def analyzeE (doc : StructuredDocument) : Except Unit AnalysisResult :=
  match resolveBalancesOptE doc with
  | Except.ok p =>
    Except.ok { starting_balance := p.1.getD 0, ending_balance := p.2.getD 0,
                transactions := extractTransactions doc.tables }
  | Except.error e => Except.error e

/-- Total description of the same computation. -/
def analyze (doc : StructuredDocument) : AnalysisResult :=
  let p := resolveBalancesOpt doc
  { starting_balance := p.1.getD 0, ending_balance := p.2.getD 0,
    transactions := extractTransactions doc.tables }

/-- Transcription of `analyze_bank_statement`: the enclosing
`except Exception` handler (src/main.py lines 140-146) degrades any raise to
zero balances and no transactions. -/
def analyze_bank_statement (doc : StructuredDocument) : AnalysisResult :=
  match analyzeE doc with
  | Except.ok r => r
  | Except.error _ =>
    { starting_balance := 0, ending_balance := 0, transactions := [] }

/-- Warning signal for an unresolved starting balance (the `print` at
src/main.py line 114). -/
def startWarning (doc : StructuredDocument) : Bool :=
  (resolveBalancesOpt doc).1.isNone

/-- Warning signal for an unresolved ending balance (the `print` at
src/main.py line 118). -/
def endWarning (doc : StructuredDocument) : Bool :=
  (resolveBalancesOpt doc).2.isNone

/-! ## Reconciliation (src/main.py lines 214-240) -/

/-- Signed amount of one record: credits count positively, debits negatively. -/
def signedAmount (t : TransactionRecord) : ℚ :=
  if t.direction = Direction.Credit then t.amount else -t.amount

/-- Sum of signed transaction amounts (src/main.py lines 215-218). -/
def totalTransactions (ts : List TransactionRecord) : ℚ :=
  (ts.map signedAmount).sum

/-- The per-document reconciliation quantities (spec section 3). -/
structure ReconciliationResult where
  starting_balance : ℚ
  ending_balance : ℚ
  total_transactions : ℚ
  expected_ending : ℚ
  actual_ending : ℚ
  variance : ℚ
  is_discrepant : Bool
deriving DecidableEq

/-- Transcription of the reconciliation block of `process_folder`
(src/main.py lines 214-240): a document is flagged discrepant exactly when
the variance magnitude exceeds `0.01`. -/
def reconcile (data : AnalysisResult) : ReconciliationResult :=
  let total := totalTransactions data.transactions
  let expected := data.starting_balance + total
  let actual := data.ending_balance
  let v := actual - expected
  { starting_balance := data.starting_balance
    ending_balance := data.ending_balance
    total_transactions := total
    expected_ending := expected
    actual_ending := actual
    variance := v
    is_discrepant := decide (|v| > 1 / 100) }

/-! ## Reformulations taken from the specification text

These definitions restate sentences of `spec.md` and are compared with the
transcribed code above by the claim theorems. -/

/-- A pair whose key matches the starting-balance pattern. -/
def startMatchKV (kv : KVPair) : Bool :=
  startPat (kvKey kv)

/-- A pair whose key matches the ending-balance pattern. -/
def endMatchKV (kv : KVPair) : Bool :=
  endPat (kvKey kv)

/-- Spec section 4.2, pass 2, for one table: the first cell in iteration
order whose lowercased content matches the label pattern and which has a
non-zero parsed neighbour in the same row at column index one less or one
greater; the value is that neighbour's parse. -/
def adjacencyHit (pat : String → Bool) (t : Table) : Option ℚ :=
  t.cells.findSome? fun cell =>
    if pat (lowerStr cell.content) then adjacentValue t.cells cell else none

/-- Spec section 4.2, pass 2, over all tables in iteration order. -/
def adjacencyScan (pat : String → Bool) (tables : List Table) : Option ℚ :=
  tables.findSome? (adjacencyHit pat)

/-- Spec section 4.2, pass 3, for one table: the first non-zero parse among
the cells of row index 0, in cell iteration order. -/
def rowZeroHit (t : Table) : Option ℚ :=
  if t.cells.length > 0 then
    (t.cells.filter fun c => c.row_index == 0).findSome? nonZeroParse
  else none

/-- Spec section 4.2, pass 3, for one table: the first non-zero parse among
the cells of the maximum row index, in cell iteration order. -/
def lastRowHit (t : Table) : Option ℚ :=
  if t.cells.length > 0 then
    match listMax? (t.cells.map Cell.row_index) with
    | some mr => (t.cells.filter fun c => c.row_index == mr).findSome? nonZeroParse
    | none => none
  else none

/-- Spec section 4.3, per cell: for a cell below the header row whose row
has at least 3 cells, emit one record using positions 0, 1 and 2 of the row,
with direction Credit exactly when the parsed amount is strictly positive. -/
def specEmitRecord (cells : List Cell) (cell : Cell) : Option TransactionRecord :=
  let row := rowContents cells cell.row_index
  if 3 ≤ row.length then
    some { date := row.getD 0 ""
           description := row.getD 1 ""
           amount := safe_float (row.getD 2 "")
           direction :=
             if 0 < safe_float (row.getD 2 "") then Direction.Credit
             else Direction.Debit }
  else none

/-- Spec section 4.3: iterate over every cell with positive row index and
apply `specEmitRecord`. -/
def extractTransactionsSpec (tables : List Table) : List TransactionRecord :=
  (tables.map fun t =>
    (t.cells.filter fun cell => 0 < cell.row_index).filterMap (specEmitRecord t.cells)).flatten

/-- The record every cell of a qualifying row `r` of table `t` produces
(meaningful when the row has at least three cells). -/
def recordOf (t : Table) (r : Nat) : TransactionRecord :=
  match rowContents t.cells r with
  | d :: desc :: amt :: _ =>
    { date := d, description := desc, amount := safe_float amt,
      direction := if safe_float amt > 0 then Direction.Credit else Direction.Debit }
  | _ => { date := "", description := "", amount := 0, direction := Direction.Debit }

/-! ## Concrete documents used as witnesses -/

/-- A table with a header row and one data row of three cells. -/
def exTableC2 : Table :=
  { cells := [ { row_index := 0, column_index := 0, content := "Date" },
               { row_index := 0, column_index := 1, content := "Desc" },
               { row_index := 0, column_index := 2, content := "Amount" },
               { row_index := 1, column_index := 0, content := "01/02" },
               { row_index := 1, column_index := 1, content := "Deposit" },
               { row_index := 1, column_index := 2, content := "200.00" } ] }

/-- A document whose starting balance is given by a key-value pair. -/
def exDocC3 : StructuredDocument :=
  { key_value_pairs := [ { key := some "Previous Balance", value := some "$1,000.00" } ],
    tables := [] }

/-- A document with two tables that both carry a non-zero cell in their only
row: the row-position fallback sees "5" first and "7" second. -/
def exDocC4 : StructuredDocument :=
  { key_value_pairs := [],
    tables := [ { cells := [ { row_index := 0, column_index := 0, content := "5" } ] },
                { cells := [ { row_index := 0, column_index := 0, content := "7" } ] } ] }

/-- A document resolved by the table-adjacency pass: a label cell next to a
non-zero numeric cell. -/
def exDocC6 : StructuredDocument :=
  { key_value_pairs := [],
    tables := [ { cells := [ { row_index := 0, column_index := 0, content := "Opening Balance" },
                             { row_index := 0, column_index := 1, content := "250.00" } ] } ] }

/-- A document no pass can resolve. -/
def exDocC8 : StructuredDocument :=
  { key_value_pairs := [], tables := [] }

/-- A document whose only starting-balance key-value pair has an absent
value side. -/
def exDocC10 : StructuredDocument :=
  { key_value_pairs := [ { key := some "Previous Balance", value := none } ],
    tables := [] }

/-! ## Helper lemmas -/

lemma find?_append {α : Type} (p : α → Bool) (l₁ l₂ : List α) :
    (l₁ ++ l₂).find? p = (l₁.find? p).or (l₂.find? p) := by
  induction l₁ with
  | nil => simp
  | cons a t ih =>
    by_cases h : p a = true
    · simp [List.find?_cons_of_pos _ h]
    · simp only [List.cons_append, List.find?_cons_of_neg _ h, ih]

lemma findSome?_prop {α β : Type} (P : β → Prop) {g : α → Option β} {l : List α} {v : β}
    (heq : l.findSome? g = some v) (h : ∀ x w, g x = some w → P w) : P v := by
  induction l with
  | nil => simp [List.findSome?_nil] at heq
  | cons x t ih =>
    rw [List.findSome?_cons] at heq
    cases hg : g x with
    | some b => rw [hg] at heq; cases heq; exact h x _ hg
    | none => rw [hg] at heq; exact ih heq

lemma foldl_kvStep_fst (pairs : List KVPair) (acc : Option ℚ × Option ℚ) :
    (pairs.foldl kvStep acc).1
      = ((pairs.reverse.find? startMatchKV).map fun kv => safe_float (kvVal kv)).or acc.1 := by
  induction pairs generalizing acc with
  | nil => simp
  | cons p t ih =>
    rw [List.foldl_cons, ih, List.reverse_cons, find?_append]
    cases hfind : t.reverse.find? startMatchKV with
    | some y => simp
    | none =>
      by_cases hp : startMatchKV p = true
      · have hp2 : startPat (kvKey p) = true := hp
        simp [List.find?_cons_of_pos _ hp, kvStep, hp2]
      · have hp2 : ¬ startPat (kvKey p) = true := hp
        simp [List.find?_cons_of_neg _ hp, kvStep, hp2]

lemma foldl_kvStep_snd (pairs : List KVPair) (acc : Option ℚ × Option ℚ) :
    (pairs.foldl kvStep acc).2
      = ((pairs.reverse.find? endMatchKV).map fun kv => safe_float (kvVal kv)).or acc.2 := by
  induction pairs generalizing acc with
  | nil => simp
  | cons p t ih =>
    rw [List.foldl_cons, ih, List.reverse_cons, find?_append]
    cases hfind : t.reverse.find? endMatchKV with
    | some y => simp
    | none =>
      by_cases hp : endMatchKV p = true
      · have hp2 : endPat (kvKey p) = true := hp
        simp [List.find?_cons_of_pos _ hp, kvStep, hp2]
      · have hp2 : ¬ endPat (kvKey p) = true := hp
        simp [List.find?_cons_of_neg _ hp, kvStep, hp2]

lemma kvPass_fst (pairs : List KVPair) :
    (kvPass pairs).1
      = ((pairs.reverse.find? startMatchKV).map fun kv => safe_float (kvVal kv)) := by
  rw [kvPass, foldl_kvStep_fst]
  simp

lemma kvPass_snd (pairs : List KVPair) :
    (kvPass pairs).2
      = ((pairs.reverse.find? endMatchKV).map fun kv => safe_float (kvVal kv)) := by
  rw [kvPass, foldl_kvStep_snd]
  simp

lemma foldl_cellStep_fst (A : List Cell) (cells : List Cell) (acc : Option ℚ × Option ℚ) :
    (cells.foldl (tableCellStep A) acc).1
      = acc.1.or (cells.findSome? fun cell =>
          if startPat (lowerStr cell.content) then adjacentValue A cell else none) := by
  induction cells generalizing acc with
  | nil => simp
  | cons c t ih =>
    rw [List.foldl_cons, ih, List.findSome?_cons]
    cases hacc : acc.1 with
    | some v => simp [tableCellStep, hacc]
    | none =>
      by_cases hp : startPat (lowerStr c.content) = true
      · simp only [tableCellStep, hacc, Option.isNone_none, Bool.true_and, hp, if_true]
        cases hv : adjacentValue A c <;> simp [hv]
      · simp [tableCellStep, hacc, hp]

lemma foldl_cellStep_snd (A : List Cell) (cells : List Cell) (acc : Option ℚ × Option ℚ) :
    (cells.foldl (tableCellStep A) acc).2
      = acc.2.or (cells.findSome? fun cell =>
          if endPat (lowerStr cell.content) then adjacentValue A cell else none) := by
  induction cells generalizing acc with
  | nil => simp
  | cons c t ih =>
    rw [List.foldl_cons, ih, List.findSome?_cons]
    cases hacc : acc.2 with
    | some v => simp [tableCellStep, hacc]
    | none =>
      by_cases hp : endPat (lowerStr c.content) = true
      · simp only [tableCellStep, hacc, Option.isNone_none, Bool.true_and, hp, if_true]
        cases hv : adjacentValue A c <;> simp [hv]
      · simp [tableCellStep, hacc, hp]

lemma tablePass_fst (tables : List Table) (acc : Option ℚ × Option ℚ) :
    (tablePass tables acc).1 = acc.1.or (adjacencyScan startPat tables) := by
  induction tables generalizing acc with
  | nil => simp [tablePass, adjacencyScan]
  | cons t ts ih =>
    show (tablePass ts (t.cells.foldl (tableCellStep t.cells) acc)).1 = _
    simp only [adjacencyScan] at ih ⊢
    rw [ih, foldl_cellStep_fst, Option.or_assoc, List.findSome?_cons]
    have hfold : (List.findSome?
        (fun cell => if startPat (lowerStr cell.content) = true
          then adjacentValue t.cells cell else none) t.cells) = adjacencyHit startPat t := rfl
    rw [hfold]
    cases h : adjacencyHit startPat t <;> simp [h]

lemma tablePass_snd (tables : List Table) (acc : Option ℚ × Option ℚ) :
    (tablePass tables acc).2 = acc.2.or (adjacencyScan endPat tables) := by
  induction tables generalizing acc with
  | nil => simp [tablePass, adjacencyScan]
  | cons t ts ih =>
    show (tablePass ts (t.cells.foldl (tableCellStep t.cells) acc)).2 = _
    simp only [adjacencyScan] at ih ⊢
    rw [ih, foldl_cellStep_snd, Option.or_assoc, List.findSome?_cons]
    have hfold : (List.findSome?
        (fun cell => if endPat (lowerStr cell.content) = true
          then adjacentValue t.cells cell else none) t.cells) = adjacencyHit endPat t := rfl
    rw [hfold]
    cases h : adjacencyHit endPat t <;> simp [h]

lemma firstRowScan_eq (acc : Option ℚ) (t : Table) :
    firstRowScan acc t = (rowZeroHit t).or acc := by
  unfold firstRowScan rowZeroHit
  by_cases h : t.cells.length > 0
  · simp only [h, if_true]
    cases hv : (t.cells.filter fun c => c.row_index == 0).findSome? nonZeroParse <;> simp [hv]
  · simp [h]

lemma lastRowScan_eq (acc : Option ℚ) (t : Table) :
    lastRowScan acc t = (lastRowHit t).or acc := by
  unfold lastRowScan lastRowHit
  by_cases h : t.cells.length > 0
  · simp only [h, if_true]
    cases hm : listMax? (t.cells.map Cell.row_index) with
    | some mr =>
      cases hv : (t.cells.filter fun c => c.row_index == mr).findSome? nonZeroParse <;>
        simp [hv]
    | none => simp
  · simp [h]

lemma foldl_scan_or {α : Type} (g : α → Option ℚ) (scan : Option ℚ → α → Option ℚ)
    (hscan : ∀ acc x, scan acc x = (g x).or acc) (l : List α) (acc : Option ℚ) :
    l.foldl scan acc = (l.reverse.findSome? g).or acc := by
  induction l generalizing acc with
  | nil => simp
  | cons x t ih =>
    rw [List.foldl_cons, ih, List.reverse_cons, List.findSome?_append, hscan]
    cases hfind : t.reverse.findSome? g with
    | some v => simp
    | none =>
      rw [Option.none_or, Option.none_or]
      cases hv : g x <;> simp [List.findSome?_cons, hv]

lemma firstRowPass_eq (tables : List Table) :
    firstRowPass tables = tables.reverse.findSome? rowZeroHit := by
  rw [firstRowPass, foldl_scan_or rowZeroHit firstRowScan firstRowScan_eq]
  simp

lemma lastRowPass_eq (tables : List Table) :
    lastRowPass tables = tables.reverse.findSome? lastRowHit := by
  rw [lastRowPass, foldl_scan_or lastRowHit lastRowScan lastRowScan_eq]
  simp

lemma listMax?_eq_none_iff (l : List Nat) : listMax? l = none ↔ l = [] := by
  cases l with
  | nil => simp [listMax?]
  | cons n t =>
    simp only [listMax?]
    cases h : listMax? t <;> simp

lemma lastRowScanE_eq (acc : Option ℚ) (t : Table) :
    lastRowScanE acc t = Except.ok (lastRowScan acc t) := by
  unfold lastRowScanE lastRowScan
  by_cases h : t.cells.length > 0
  · simp only [h, if_true]
    cases hm : listMax? (t.cells.map Cell.row_index) with
    | some mr => rfl
    | none =>
      exfalso
      rw [listMax?_eq_none_iff] at hm
      have hnil : t.cells = [] := by
        cases hc : t.cells with
        | nil => rfl
        | cons a l => rw [hc] at hm; simp at hm
      rw [hnil] at h
      simp at h
  · simp [h]

lemma foldlM_lastRowScanE (tables : List Table) (acc : Option ℚ) :
    List.foldlM lastRowScanE acc tables = Except.ok (tables.foldl lastRowScan acc) := by
  induction tables generalizing acc with
  | nil => rfl
  | cons t ts ih =>
    rw [List.foldlM_cons, lastRowScanE_eq]
    exact ih (lastRowScan acc t)

lemma lastRowPassE_eq (tables : List Table) :
    lastRowPassE tables = Except.ok (lastRowPass tables) := by
  rw [lastRowPassE, lastRowPass]
  exact foldlM_lastRowScanE tables none

lemma afterPass2_fst_of_some {doc : StructuredDocument} {v : ℚ}
    (h : (kvPass doc.key_value_pairs).1 = some v) : (afterPass2 doc).1 = some v := by
  unfold afterPass2
  cases hg : ((kvPass doc.key_value_pairs).1.isNone || (kvPass doc.key_value_pairs).2.isNone) with
  | true => simp only [hg, if_true]; rw [tablePass_fst, h, Option.or_some]
  | false => simp only [hg, if_false]; exact h

lemma afterPass2_snd_of_some {doc : StructuredDocument} {v : ℚ}
    (h : (kvPass doc.key_value_pairs).2 = some v) : (afterPass2 doc).2 = some v := by
  unfold afterPass2
  cases hg : ((kvPass doc.key_value_pairs).1.isNone || (kvPass doc.key_value_pairs).2.isNone) with
  | true => simp only [hg, if_true]; rw [tablePass_snd, h, Option.or_some]
  | false => simp only [hg, if_false]; exact h

lemma afterPass2_fst_of_none {doc : StructuredDocument}
    (h : (kvPass doc.key_value_pairs).1 = none) :
    (afterPass2 doc).1 = adjacencyScan startPat doc.tables := by
  unfold afterPass2
  have hg : ((kvPass doc.key_value_pairs).1.isNone || (kvPass doc.key_value_pairs).2.isNone)
      = true := by
    simp [h]
  simp only [hg, if_true]
  rw [tablePass_fst, h, Option.none_or]

lemma afterPass2_snd_of_none {doc : StructuredDocument}
    (h : (kvPass doc.key_value_pairs).2 = none) :
    (afterPass2 doc).2 = adjacencyScan endPat doc.tables := by
  unfold afterPass2
  have hg : ((kvPass doc.key_value_pairs).1.isNone || (kvPass doc.key_value_pairs).2.isNone)
      = true := by
    simp [h]
  simp only [hg, if_true]
  rw [tablePass_snd, h, Option.none_or]

lemma resolve_fst_of_some {doc : StructuredDocument} {v : ℚ}
    (h : (afterPass2 doc).1 = some v) : (resolveBalancesOpt doc).1 = some v := by
  unfold resolveBalancesOpt
  simp [h]

lemma resolve_snd_of_some {doc : StructuredDocument} {v : ℚ}
    (h : (afterPass2 doc).2 = some v) : (resolveBalancesOpt doc).2 = some v := by
  unfold resolveBalancesOpt
  simp [h]

lemma resolve_fst_of_none {doc : StructuredDocument}
    (h : (afterPass2 doc).1 = none) :
    (resolveBalancesOpt doc).1 = firstRowPass doc.tables := by
  unfold resolveBalancesOpt
  simp [h]

lemma resolve_snd_of_none {doc : StructuredDocument}
    (h : (afterPass2 doc).2 = none) :
    (resolveBalancesOpt doc).2 = lastRowPass doc.tables := by
  unfold resolveBalancesOpt
  simp [h]

lemma resolveBalancesOptE_eq (doc : StructuredDocument) :
    resolveBalancesOptE doc = Except.ok (resolveBalancesOpt doc) := by
  unfold resolveBalancesOptE resolveBalancesOpt
  cases hg : (afterPass2 doc).2.isNone with
  | true => simp [hg, lastRowPassE_eq]
  | false => simp [hg]

lemma analyzeE_eq (doc : StructuredDocument) :
    analyzeE doc = Except.ok (analyze doc) := by
  unfold analyzeE analyze
  rw [resolveBalancesOptE_eq]

lemma analyze_bank_statement_eq (doc : StructuredDocument) :
    analyze_bank_statement doc = analyze doc := by
  unfold analyze_bank_statement
  rw [analyzeE_eq]

lemma nonZeroParse_ne_zero {c : Cell} {w : ℚ} (h : nonZeroParse c = some w) : w ≠ 0 := by
  simp only [nonZeroParse] at h
  split_ifs at h with h2
  cases h
  exact h2

lemma adjacentValue_ne_zero {A : List Cell} {c : Cell} {v : ℚ}
    (h : adjacentValue A c = some v) : v ≠ 0 := by
  unfold adjacentValue at h
  refine findSome?_prop (fun w => w ≠ 0) h ?_
  intro adj w hw
  split_ifs at hw
  exact nonZeroParse_ne_zero hw

lemma adjacencyScan_ne_zero {pat : String → Bool} {tables : List Table} {v : ℚ}
    (h : adjacencyScan pat tables = some v) : v ≠ 0 := by
  unfold adjacencyScan at h
  refine findSome?_prop (fun w => w ≠ 0) h ?_
  intro t w hw
  unfold adjacencyHit at hw
  refine findSome?_prop (fun w => w ≠ 0) hw ?_
  intro cell u hu
  split_ifs at hu
  exact adjacentValue_ne_zero hu

lemma analyze_starting (doc : StructuredDocument) :
    (analyze_bank_statement doc).starting_balance = ((resolveBalancesOpt doc).1).getD 0 := by
  rw [analyze_bank_statement_eq]
  rfl

lemma analyze_ending (doc : StructuredDocument) :
    (analyze_bank_statement doc).ending_balance = ((resolveBalancesOpt doc).2).getD 0 := by
  rw [analyze_bank_statement_eq]
  rfl

lemma analyze_transactions (doc : StructuredDocument) :
    (analyze_bank_statement doc).transactions = extractTransactions doc.tables := by
  rw [analyze_bank_statement_eq]
  rfl

lemma emit_eq_spec {A : List Cell} {c : Cell} (h : 0 < c.row_index) :
    emitRecord A c = specEmitRecord A c := by
  unfold emitRecord specEmitRecord
  rw [if_pos h]
  rcases hrow : rowContents A c.row_index with _ | ⟨d, _ | ⟨ds, _ | ⟨a, rest⟩⟩⟩ <;>
    simp [hrow]

lemma filterMap_emit_eq (A : List Cell) (cells : List Cell) :
    cells.filterMap (emitRecord A)
      = (cells.filter fun cell => 0 < cell.row_index).filterMap (specEmitRecord A) := by
  induction cells with
  | nil => rfl
  | cons c t ih =>
    rw [List.filterMap_cons, List.filter_cons]
    by_cases h : 0 < c.row_index
    · simp [h, emit_eq_spec h, List.filterMap_cons, ih]
    · have hnone : emitRecord A c = none := by
        unfold emitRecord
        rw [if_neg h]
      simp [h, hnone, ih]

lemma extractTransactions_eq_spec (tables : List Table) :
    extractTransactions tables = extractTransactionsSpec tables := by
  induction tables with
  | nil => rfl
  | cons t ts ih =>
    show (List.map _ (t :: ts)).flatten = (List.map _ (t :: ts)).flatten
    rw [List.map_cons, List.map_cons, List.flatten_cons, List.flatten_cons,
      filterMap_emit_eq]
    have ih2 : (ts.map fun tb => tb.cells.filterMap (emitRecord tb.cells)).flatten
        = (ts.map fun tb =>
            (tb.cells.filter fun cell => 0 < cell.row_index).filterMap
              (specEmitRecord tb.cells)).flatten := ih
    rw [ih2]

lemma replicate_sublist_filterMap {α β : Type} (g : α → Option β) (p : α → Bool) (v : β)
    (hg : ∀ x, p x = true → g x = some v) (l : List α) :
    List.Sublist (List.replicate (l.filter p).length v) (l.filterMap g) := by
  induction l with
  | nil => simp
  | cons x t ih =>
    rw [List.filter_cons, List.filterMap_cons]
    by_cases h : p x = true
    · rw [if_pos h, hg x h]
      simp only [List.length_cons, List.replicate_succ]
      exact List.Sublist.cons₂ v ih
    · rw [if_neg h]
      cases hgx : g x with
      | some w => exact List.Sublist.cons w ih
      | none => exact ih

lemma emitRecord_eq_recordOf {t : Table} {r : Nat} (hr : 0 < r)
    (hlen : 3 ≤ (t.cells.filter fun c => c.row_index == r).length) :
    ∀ c : Cell, (c.row_index == r) = true → emitRecord t.cells c = some (recordOf t r) := by
  intro c hc
  have hcr : c.row_index = r := by simpa using hc
  have hlen2 : 3 ≤ (rowContents t.cells r).length := by
    rw [rowContents, List.length_map]
    exact hlen
  unfold emitRecord recordOf
  rw [hcr, if_pos hr]
  rcases hrow : rowContents t.cells r with _ | ⟨d, _ | ⟨ds, _ | ⟨a, rest⟩⟩⟩ <;>
    first
    | rfl
    | (rw [hrow] at hlen2; simp at hlen2)

lemma extractTransactions_singleton (t : Table) :
    extractTransactions [t] = t.cells.filterMap (emitRecord t.cells) := by
  unfold extractTransactions
  simp

lemma find?_eq_head?_filter {α : Type} (p : α → Bool) (l : List α) :
    l.find? p = (l.filter p).head? := by
  induction l with
  | nil => rfl
  | cons a t ih =>
    by_cases h : p a = true
    · rw [List.find?_cons_of_pos _ h, List.filter_cons, if_pos h]
      rfl
    · rw [List.find?_cons_of_neg _ h, List.filter_cons, if_neg h]
      exact ih

lemma find?_reverse_eq_getLast?_filter {α : Type} (p : α → Bool) (l : List α) :
    l.reverse.find? p = (l.filter p).getLast? := by
  rw [find?_eq_head?_filter, List.filter_reverse, List.head?_reverse]

/-! ## The claims -/

/-- C1: for every resolved document, the reconciliation computes
`total_transactions` as the signed sum over the transaction records
(credits positive, debits negated), `expected_ending` as
`starting_balance + total_transactions`, `variance` as
`ending_balance - expected_ending`, and flags the document as discrepant
exactly when the absolute value of the variance exceeds `0.01`. -/
theorem claim_C1_reconciliation (doc : StructuredDocument) :
    (reconcile (analyze_bank_statement doc)).total_transactions
        = ((analyze_bank_statement doc).transactions.map fun t =>
            if t.direction = Direction.Credit then t.amount else -t.amount).sum
  ∧ (reconcile (analyze_bank_statement doc)).expected_ending
        = (analyze_bank_statement doc).starting_balance
          + (reconcile (analyze_bank_statement doc)).total_transactions
  ∧ (reconcile (analyze_bank_statement doc)).variance
        = (analyze_bank_statement doc).ending_balance
          - (reconcile (analyze_bank_statement doc)).expected_ending
  ∧ ((reconcile (analyze_bank_statement doc)).is_discrepant = true
        ↔ |(reconcile (analyze_bank_statement doc)).variance| > 1 / 100) := by
  refine ⟨rfl, rfl, rfl, ?_⟩
  simp [reconcile]

/-- C2: the transaction extractor is exactly the per-cell emission the spec
describes (positions 0, 1, 2 of the rebuilt row; Credit exactly on strictly
positive parse; rows with fewer than 3 cells dropped), and because it
iterates over every cell of a qualifying row, a row with `N` cells yields
`N` duplicate copies of the same record. -/
theorem claim_C2_transactions :
    (∀ tables : List Table, extractTransactions tables = extractTransactionsSpec tables)
  ∧ ∀ (t : Table) (r : Nat), 0 < r →
      3 ≤ (t.cells.filter fun c => c.row_index == r).length →
      List.Sublist
        (List.replicate ((t.cells.filter fun c => c.row_index == r).length) (recordOf t r))
        (extractTransactions [t]) := by
  refine ⟨extractTransactions_eq_spec, ?_⟩
  intro t r hr hlen
  rw [extractTransactions_singleton]
  exact replicate_sublist_filterMap (emitRecord t.cells) (fun c => c.row_index == r)
    (recordOf t r) (emitRecord_eq_recordOf hr hlen) t.cells

/-- Witness for C2 at a concrete table: the data row has 3 cells and the
extractor emits 3 duplicate records. -/
theorem claim_C2_witness :
    0 < 1
  ∧ 3 ≤ (exTableC2.cells.filter fun c => c.row_index == 1).length
  ∧ List.Sublist
      (List.replicate ((exTableC2.cells.filter fun c => c.row_index == 1).length)
        (recordOf exTableC2 1))
      (extractTransactions [exTableC2]) :=
  ⟨by decide, by decide, claim_C2_transactions.2 exTableC2 1 (by decide) (by decide)⟩

/-- C3: whenever some key-value pair's key matches the starting-balance
pattern, the resolver's starting balance is the parsed value of a matching
pair, the table passes contribute nothing to it (first conjunct: the final
optional value equals the key-value pass value), and this holds even when
the parsed value is `0.0` (no non-zero hypothesis is required). -/
theorem claim_C3_kv_precedence (doc : StructuredDocument)
    (h : ∃ kv ∈ doc.key_value_pairs, startMatchKV kv = true) :
    ∃ kv ∈ doc.key_value_pairs, startMatchKV kv = true
      ∧ (resolveBalancesOpt doc).1 = (kvPass doc.key_value_pairs).1
      ∧ (resolveBalancesOpt doc).1 = some (safe_float (kvVal kv))
      ∧ (analyze_bank_statement doc).starting_balance = safe_float (kvVal kv) := by
  have hsome : (doc.key_value_pairs.reverse.find? startMatchKV).isSome = true := by
    rw [List.find?_isSome]
    obtain ⟨kv, hmem, hmatch⟩ := h
    exact ⟨kv, List.mem_reverse.mpr hmem, hmatch⟩
  obtain ⟨kv0, hfind⟩ := Option.isSome_iff_exists.mp hsome
  have hkv : (kvPass doc.key_value_pairs).1 = some (safe_float (kvVal kv0)) := by
    rw [kvPass_fst, hfind]
    rfl
  have hres : (resolveBalancesOpt doc).1 = some (safe_float (kvVal kv0)) :=
    resolve_fst_of_some (afterPass2_fst_of_some hkv)
  refine ⟨kv0, List.mem_reverse.mp (List.mem_of_find?_eq_some hfind),
    List.find?_some hfind, ?_, hres, ?_⟩
  · rw [hres, hkv]
  · rw [analyze_starting, hres]
    rfl

/-- Witness for C3 at a concrete document with one matching pair. -/
theorem claim_C3_witness :
    (∃ kv ∈ exDocC3.key_value_pairs, startMatchKV kv = true)
  ∧ ∃ kv ∈ exDocC3.key_value_pairs, startMatchKV kv = true
      ∧ (resolveBalancesOpt exDocC3).1 = (kvPass exDocC3.key_value_pairs).1
      ∧ (resolveBalancesOpt exDocC3).1 = some (safe_float (kvVal kv))
      ∧ (analyze_bank_statement exDocC3).starting_balance = safe_float (kvVal kv) :=
  ⟨by decide, claim_C3_kv_precedence exDocC3 (by decide)⟩

/-- Counterexample to C4 as stated: in `exDocC4` the key-value and
adjacency passes find nothing, so both fields reach the row-position
fallback; the FIRST table has a qualifying non-zero cell (its row-0 and
last-row scans both yield `5`), yet the resolver returns `7`, the value
from the LAST table — the first table does not determine the result. -/
theorem claim_C4_counterexample :
    rowZeroHit { cells := [ { row_index := 0, column_index := 0, content := "5" } ] } = some 5
  ∧ lastRowHit { cells := [ { row_index := 0, column_index := 0, content := "5" } ] } = some 5
  ∧ kvPass exDocC4.key_value_pairs = (none, none)
  ∧ adjacencyScan startPat exDocC4.tables = none
  ∧ adjacencyScan endPat exDocC4.tables = none
  ∧ (analyze_bank_statement exDocC4).starting_balance = 7
  ∧ (analyze_bank_statement exDocC4).ending_balance = 7 := by
  refine ⟨?_, ?_, ?_, ?_, ?_, ?_, ?_⟩ <;> with_unfolding_all decide

/-- C4 as amended: when a field reaches the row-position fallback, each
table is scanned for the first non-zero parse in cell order (`rowZeroHit`
over row 0 for the starting balance, `lastRowHit` over the maximum-row
cells for the ending balance), but the table loop does not stop at a hit,
so the LAST table in iteration order containing such a non-zero cell
determines the result, overwriting earlier tables (hence the `reverse`). -/
theorem claim_C4_amended (doc : StructuredDocument) :
    ((afterPass2 doc).1 = none →
        (resolveBalancesOpt doc).1 = doc.tables.reverse.findSome? rowZeroHit
      ∧ (analyze_bank_statement doc).starting_balance
          = (doc.tables.reverse.findSome? rowZeroHit).getD 0)
  ∧ ((afterPass2 doc).2 = none →
        (resolveBalancesOpt doc).2 = doc.tables.reverse.findSome? lastRowHit
      ∧ (analyze_bank_statement doc).ending_balance
          = (doc.tables.reverse.findSome? lastRowHit).getD 0) := by
  constructor
  · intro h
    have h1 : (resolveBalancesOpt doc).1 = firstRowPass doc.tables := resolve_fst_of_none h
    rw [firstRowPass_eq] at h1
    exact ⟨h1, by rw [analyze_starting, h1]⟩
  · intro h
    have h1 : (resolveBalancesOpt doc).2 = lastRowPass doc.tables := resolve_snd_of_none h
    rw [lastRowPass_eq] at h1
    exact ⟨h1, by rw [analyze_ending, h1]⟩

/-- Witness for the amended C4 at the two-table document. -/
theorem claim_C4_witness :
    (afterPass2 exDocC4).1 = none
  ∧ ((resolveBalancesOpt exDocC4).1 = exDocC4.tables.reverse.findSome? rowZeroHit
      ∧ (analyze_bank_statement exDocC4).starting_balance
          = (exDocC4.tables.reverse.findSome? rowZeroHit).getD 0) :=
  ⟨by with_unfolding_all decide,
    (claim_C4_amended exDocC4).1 (by with_unfolding_all decide)⟩

/-- C5: on any string input the parser strips commas and dollar signs and
returns the parsed decimal value, or exactly `0.0` when the residue does
not parse (including the empty string) — the `except ValueError` clause
never lets a string input raise. But on an absent (`None`) input the
attribute access `value.replace` raises `AttributeError`, which the
`except ValueError` clause does not catch, contradicting the docstring
"If it fails, return 0.0": the claim's `None` case is a code bug. -/
theorem claim_C5_safe_float :
    safe_floatE none = Except.error PyErr.attributeError
  ∧ (∀ s : String, safe_floatE (some s) = Except.ok (safe_float s))
  ∧ safe_float "$1,000.00" = 1000
  ∧ safe_float "2.50" = 5 / 2
  ∧ safe_float "-12.5" = -25 / 2
  ∧ safe_float "" = 0
  ∧ safe_float "abc" = 0
  ∧ safe_float "12x" = 0 := by
  refine ⟨rfl, fun s => rfl, ?_, ?_, ?_, ?_, ?_, ?_⟩ <;> with_unfolding_all decide

/-- C6: when a balance field is unresolved after the key-value pass, the
state after the table-adjacency pass is exactly the first (in table/cell
iteration order) non-zero parsed value found in the same row at column
index one less or one greater than a label-matching cell; such a value is
never zero, and when one exists it becomes the resolver's output for the
field (the row-position pass is skipped). -/
theorem claim_C6_adjacency (doc : StructuredDocument) :
    ((kvPass doc.key_value_pairs).1 = none →
        (afterPass2 doc).1 = adjacencyScan startPat doc.tables
      ∧ ∀ v : ℚ, adjacencyScan startPat doc.tables = some v →
          v ≠ 0 ∧ (analyze_bank_statement doc).starting_balance = v)
  ∧ ((kvPass doc.key_value_pairs).2 = none →
        (afterPass2 doc).2 = adjacencyScan endPat doc.tables
      ∧ ∀ v : ℚ, adjacencyScan endPat doc.tables = some v →
          v ≠ 0 ∧ (analyze_bank_statement doc).ending_balance = v) := by
  constructor
  · intro h
    have h2 := afterPass2_fst_of_none h
    refine ⟨h2, fun v hv => ⟨adjacencyScan_ne_zero hv, ?_⟩⟩
    rw [analyze_starting, resolve_fst_of_some (h2.trans hv)]
    rfl
  · intro h
    have h2 := afterPass2_snd_of_none h
    refine ⟨h2, fun v hv => ⟨adjacencyScan_ne_zero hv, ?_⟩⟩
    rw [analyze_ending, resolve_snd_of_some (h2.trans hv)]
    rfl

/-- Witness for C6 at a document resolved by adjacency to `250`. -/
theorem claim_C6_witness :
    (kvPass exDocC6.key_value_pairs).1 = none
  ∧ adjacencyScan startPat exDocC6.tables = some 250
  ∧ ((250 : ℚ) ≠ 0 ∧ (analyze_bank_statement exDocC6).starting_balance = 250) :=
  ⟨rfl, by with_unfolding_all decide,
    ((claim_C6_adjacency exDocC6).1 rfl).2 250 (by with_unfolding_all decide)⟩

/-- C7: the key-value pass keeps, for each field, the parsed value of the
LAST matching pair in iteration order (the first match in the reversed
list, equivalently the last element of the filtered list), overwriting
earlier matches. -/
theorem claim_C7_last_match (pairs : List KVPair) :
    (kvPass pairs).1
        = ((pairs.reverse.find? startMatchKV).map fun kv => safe_float (kvVal kv))
  ∧ (kvPass pairs).2
        = ((pairs.reverse.find? endMatchKV).map fun kv => safe_float (kvVal kv))
  ∧ pairs.reverse.find? startMatchKV = (pairs.filter startMatchKV).getLast?
  ∧ pairs.reverse.find? endMatchKV = (pairs.filter endMatchKV).getLast? :=
  ⟨kvPass_fst pairs, kvPass_snd pairs,
    find?_reverse_eq_getLast?_filter startMatchKV pairs,
    find?_reverse_eq_getLast?_filter endMatchKV pairs⟩

/-- C8: the analysis body never raises (its exception-modelling run always
returns `ok` of the value the total description computes), and a balance
field no pass resolves comes back as `0.0` together with a raised warning
signal for that field. -/
theorem claim_C8_defaults (doc : StructuredDocument) :
    analyzeE doc = Except.ok (analyze_bank_statement doc)
  ∧ ((resolveBalancesOpt doc).1 = none →
      (analyze_bank_statement doc).starting_balance = 0 ∧ startWarning doc = true)
  ∧ ((resolveBalancesOpt doc).2 = none →
      (analyze_bank_statement doc).ending_balance = 0 ∧ endWarning doc = true) := by
  refine ⟨by rw [analyzeE_eq, analyze_bank_statement_eq], ?_, ?_⟩
  · intro h
    constructor
    · rw [analyze_starting, h]
      rfl
    · rw [startWarning, h]
      rfl
  · intro h
    constructor
    · rw [analyze_ending, h]
      rfl
    · rw [endWarning, h]
      rfl

/-- Witness for C8 at a document with no key-value pairs and no tables. -/
theorem claim_C8_witness :
    (resolveBalancesOpt exDocC8).1 = none
  ∧ ((analyze_bank_statement exDocC8).starting_balance = 0 ∧ startWarning exDocC8 = true) :=
  ⟨rfl, (claim_C8_defaults exDocC8).2.1 rfl⟩

/-- C9: the ending-balance fallback never reaches the `max`-of-empty raise
(its exception-modelling run always returns `ok`), because a table with an
empty cell list is skipped by the `len(table.cells) > 0` guard in both
row-position scans. -/
theorem claim_C9_empty_tables :
    (∀ tables : List Table, lastRowPassE tables = Except.ok (lastRowPass tables))
  ∧ ∀ (t : Table) (acc : Option ℚ), t.cells = [] →
      lastRowScanE acc t = Except.ok acc ∧ firstRowScan acc t = acc := by
  refine ⟨lastRowPassE_eq, ?_⟩
  intro t acc h
  constructor
  · unfold lastRowScanE
    rw [h]
    rfl
  · unfold firstRowScan
    rw [h]
    rfl

/-- Witness for C9 at an empty table. -/
theorem claim_C9_witness :
    (Table.mk []).cells = []
  ∧ (lastRowScanE none (Table.mk []) = Except.ok none
      ∧ firstRowScan none (Table.mk []) = none) :=
  ⟨rfl, claim_C9_empty_tables.2 (Table.mk []) none rfl⟩

/-- C10: a key-value pair with a matching key and an absent value side is
read as the empty string, which parses to `0.0`; the key-value loop then
assigns `some 0.0` to the field, the field is resolved after the key-value
pass, and the table-adjacency and row-position passes leave it unchanged. -/
theorem claim_C10_absent_value (doc : StructuredDocument) (kv : KVPair)
    (hmem : kv ∈ doc.key_value_pairs) (hval : kv.value = none) :
    (startMatchKV kv = true →
        safe_float (kvVal kv) = 0
      ∧ (∀ acc : Option ℚ × Option ℚ, (kvStep acc kv).1 = some 0)
      ∧ (kvPass doc.key_value_pairs).1.isSome = true
      ∧ (resolveBalancesOpt doc).1 = (kvPass doc.key_value_pairs).1)
  ∧ (endMatchKV kv = true →
        safe_float (kvVal kv) = 0
      ∧ (∀ acc : Option ℚ × Option ℚ, (kvStep acc kv).2 = some 0)
      ∧ (kvPass doc.key_value_pairs).2.isSome = true
      ∧ (resolveBalancesOpt doc).2 = (kvPass doc.key_value_pairs).2) := by
  have hzero : safe_float (kvVal kv) = 0 := by
    rw [kvVal, hval]
    rfl
  constructor
  · intro h
    have h2 : startPat (kvKey kv) = true := h
    have hsome : (doc.key_value_pairs.reverse.find? startMatchKV).isSome = true := by
      rw [List.find?_isSome]
      exact ⟨kv, List.mem_reverse.mpr hmem, h⟩
    obtain ⟨kv0, hfind⟩ := Option.isSome_iff_exists.mp hsome
    have hkv : (kvPass doc.key_value_pairs).1 = some (safe_float (kvVal kv0)) := by
      rw [kvPass_fst, hfind]
      rfl
    refine ⟨hzero, ?_, by rw [hkv]; rfl, ?_⟩
    · intro acc
      simp [kvStep, h2, hzero]
    · rw [resolve_fst_of_some (afterPass2_fst_of_some hkv), hkv]
  · intro h
    have h2 : endPat (kvKey kv) = true := h
    have hsome : (doc.key_value_pairs.reverse.find? endMatchKV).isSome = true := by
      rw [List.find?_isSome]
      exact ⟨kv, List.mem_reverse.mpr hmem, h⟩
    obtain ⟨kv0, hfind⟩ := Option.isSome_iff_exists.mp hsome
    have hkv : (kvPass doc.key_value_pairs).2 = some (safe_float (kvVal kv0)) := by
      rw [kvPass_snd, hfind]
      rfl
    refine ⟨hzero, ?_, by rw [hkv]; rfl, ?_⟩
    · intro acc
      simp [kvStep, h2, hzero]
    · rw [resolve_snd_of_some (afterPass2_snd_of_some hkv), hkv]

/-- Witness for C10 at a document whose only pair has a matching key and an
absent value. -/
theorem claim_C10_witness :
    KVPair.mk (some "Previous Balance") none ∈ exDocC10.key_value_pairs
  ∧ (KVPair.mk (some "Previous Balance") none).value = none
  ∧ startMatchKV (KVPair.mk (some "Previous Balance") none) = true
  ∧ (safe_float (kvVal (KVPair.mk (some "Previous Balance") none)) = 0
      ∧ (∀ acc : Option ℚ × Option ℚ,
          (kvStep acc (KVPair.mk (some "Previous Balance") none)).1 = some 0)
      ∧ (kvPass exDocC10.key_value_pairs).1.isSome = true
      ∧ (resolveBalancesOpt exDocC10).1 = (kvPass exDocC10.key_value_pairs).1) :=
  ⟨by decide, rfl, by decide,
    (claim_C10_absent_value exDocC10 (KVPair.mk (some "Previous Balance") none)
      (by decide) rfl).1 (by decide)⟩

end BankRec
